import Mathlib

set_option maxRecDepth 40000

/-!
Shallow embedding of `src/bot.py` (jngohel/Newsbot): a Telegram news bot that
polls RSS feeds and one scraped site, extracts title/summary/images/video from
each new article page, sends a shaped Telegram message, and records posted URLs
in a MongoDB collection.

Modelling conventions:
* Python strings are `List Char` (Python indexes, slices and measures `str` by
  characters); a `String` literal `s` is embedded as `s.data`.
* The `posted_urls` MongoDB collection is a `List (List Char)` of url documents
  in insertion order; `find_one` with a url filter is membership; `insert_one`
  appends.
* HTTP, HTML parsing and Telegram transport are oracles: a scrape oracle
  yielding `ScrapeResult`, a download oracle `List Char → Option Nat` (the
  `Nat` stands for the downloaded bytes), and a send oracle `Msg → Bool` where
  `false` means the Telegram call raised an exception.
* Python string truthiness is `≠ []`; `None` is `Option.none`.
-/

namespace Newsbot

/-- Python `str` modelled as a character sequence. -/
abbrev PStr := List Char

/-- Python `pat in s` (substring containment). -/
def hasSubstr (s pat : PStr) : Bool :=
  match s with
  | [] => pat.isEmpty
  | _ :: rest => pat.isPrefixOf s || hasSubstr rest pat

/-- Python `s.strip()`: drop leading and trailing whitespace. -/
def pyStrip (s : PStr) : PStr :=
  ((s.dropWhile Char.isWhitespace).reverse.dropWhile Char.isWhitespace).reverse

/-- Python `s.lower()` (ASCII-relevant part). -/
def pyLower (s : PStr) : PStr :=
  s.map Char.toLower

/-! ## Image filtering (`is_valid_image`, bot.py lines 60-70) -/

/-- The `bad_keywords` denylist of `is_valid_image` (bot.py line 65). -/
def bad_keywords : List PStr :=
  ["logo".data, "banner".data, "icon".data, "sprite".data, "ads".data,
   "advert".data, "favicon".data, "placeholder".data, "gif".data]

/-- Embeds `is_valid_image` (bot.py lines 60-70): reject empty urls, urls containing a
denylist keyword (case-insensitively), and urls ending in `.gif` / `.svg`. -/
def is_valid_image (url : PStr) : Bool :=
  if url.isEmpty then false
  else
    let url_lower := pyLower url
    if bad_keywords.any (fun k => hasSubstr url_lower k) then false
    else if ".gif".data.isSuffixOf url_lower || ".svg".data.isSuffixOf url_lower then false
    else true

/-- Image selection of `scrape_article` (bot.py lines 96-99): keep `src`
attributes passing `is_valid_image`, then `valid_imgs[:3] if valid_imgs else []`.
The input list is the `src` of every `<img>` tag, in document order. -/
def main_images (all_imgs : List PStr) : List PStr :=
  let valid_imgs := all_imgs.filter is_valid_image
  valid_imgs.take 3

/-! ## Summary extraction (`scrape_article`, bot.py lines 85-94) -/

/-- Python `s.rsplit(" ", 1)[0]`: everything before the last space, or `s`
itself when `s` has no space. -/
def rsplit_space_head (s : PStr) : PStr :=
  if s.contains ' ' then ((s.reverse.dropWhile (fun c => !(c == ' '))).drop 1).reverse
  else s

/-- Summary pipeline of `scrape_article` (bot.py lines 85-94). `desc` is the
`og:description` meta content when present; `paragraphs` are the
`get_text(strip=True)` texts of the page's `<p>` tags in order. The summary is
the stripped description, else the first two paragraphs longer than 40
characters joined by a blank line; a summary longer than 900 characters is cut
to its first 900 characters, dropped back to the last space, plus `"..."`. -/
def extract_summary (desc : Option PStr) (paragraphs : List PStr) : PStr :=
  let summary : PStr :=
    match desc with
    | some c => pyStrip c
    | none => []
  let summary : PStr :=
    if summary.isEmpty then
      let ps := paragraphs.filter (fun p => p.length > 40)
      if ps.isEmpty then summary else List.intercalate "\n\n".data (ps.take 2)
    else summary
  if summary.length > 900 then rsplit_space_head (summary.take 900) ++ "...".data
  else summary

/-! ## Dedup ledger (`posted_col`, MongoDB collection of `{"url": ...}` docs) -/

/-- The `posted_urls` collection: url documents in insertion order. -/
abbrev Ledger := List PStr

/-- Existence check: whether `posted_col.find_one` on the url returns a document. -/
def ledger_has (l : Ledger) (u : PStr) : Bool :=
  l.contains u

/-- Record: `posted_col.insert_one` on the url document (bot.py line 200): MongoDB
`insert_one` appends a fresh document unconditionally (there is no unique
index on `url` and no `find_one` guard, unlike the `feeds_col` inserts). -/
def record_posted (l : Ledger) (u : PStr) : Ledger :=
  l ++ [u]

/-! ## Candidate articles (`fetch_feed_entries` / `fetch_newsonair_articles`) -/

/-- A candidate article as built by the fetchers: `\x7b"url": ..., "source_name": ...\x7d`. -/
structure Article where
  url : PStr
  source_name : PStr
deriving DecidableEq

/-- RSS branch of `fetch_feed_entries` (bot.py lines 146-153): each entry's
`e.get("link")` (possibly `None`), kept when the link is truthy and not yet in
`posted_col`, paired with the feed's name, order preserved. -/
def fetch_feed_entries (ledger : Ledger) (name : PStr) (links : List (Option PStr)) :
    List Article :=
  links.filterMap fun l =>
    match l with
    | none => none
    | some s => if ¬s.isEmpty ∧ ¬ledger_has ledger s then some ⟨s, name⟩ else none

/-- One candidate card of the NewsOnAir page: the `href` of the card's first
anchor (when one exists) and the text of its first `h2`/`h3`/`a` tag. -/
structure Card where
  link : Option PStr
  title : Option PStr

/-- Link resolution of `fetch_newsonair_articles` (bot.py lines 126-128):
prefix the host unless the href already starts with `"http"`. -/
def resolve_noa_link (l : PStr) : PStr :=
  if "http".data.isPrefixOf l then l else "https://www.newsonair.gov.in".data ++ l

/-- Embeds `fetch_newsonair_articles` (bot.py lines 112-138): for each card with an
anchor and a title tag, resolve the link, skip cards with an empty title or a
link already in `posted_col`, and return the first 8 candidates. -/
def fetch_newsonair_articles (ledger : Ledger) (cards : List Card) : List Article :=
  (cards.filterMap fun c =>
    match c.link, c.title with
    | some l, some t =>
      let link := resolve_noa_link l
      if ¬t.isEmpty ∧ ¬ledger_has ledger link
      then some ⟨link, "News On Air Hindi".data⟩ else none
    | _, _ => none).take 8

/-! ## Delivery (`post_news`, bot.py lines 159-203) -/

/-- Result of `scrape_article` for one url: `(title, summary, main_images,
video_url)`; on a scrape exception the title is `none` (bot.py line 109). -/
structure ScrapeResult where
  title : Option PStr
  summary : PStr
  images : List PStr
  video : Option PStr

/-- The caption f-string of bot.py line 171. -/
def make_caption (title summary source_name url : PStr) : PStr :=
  "*".data ++ title ++ "*\n\n_".data ++ summary ++ "_\n\n[Source: ".data
    ++ source_name ++ "](".data ++ url ++ ")".data

/-- A message handed to the Telegram transport. A media-group item pairs the
downloaded bytes with its optional caption. -/
inductive Msg where
  | video (data : Nat) (caption : PStr)
  | mediaGroup (items : List (Nat × Option PStr))
  | text (t : PStr)
deriving DecidableEq

/-- The media-group loop of bot.py lines 185-192: download each image url in
order; a failed download drops that item; the caption is attached to the item
of index 0 only. `idx` is the enumeration index of the head of the list. -/
def build_images (dl : PStr → Option Nat) (cap : PStr) :
    Nat → List PStr → List (Nat × Option PStr)
  | _, [] => []
  | idx, u :: rest =>
    match dl u with
    | some d => (d, if idx = 0 then some cap else none) :: build_images dl cap (idx + 1) rest
    | none => build_images dl cap (idx + 1) rest

/-- Shape selection of bot.py lines 173-198 for one article, as the list of
Telegram calls attempted: `if video_url:` download it and send a single video
message when the download succeeds (nothing is sent when it fails);
`elif image_urls:` download the images and send one media group when at least
one download succeeded; `else:` send a plain text message. -/
def deliver_article (dl : PStr → Option Nat) (cap : PStr)
    (image_urls : List PStr) (video_url : Option PStr) : List Msg :=
  let non_video : List Msg :=
    if image_urls.isEmpty then [Msg.text cap]
    else
      let images := build_images dl cap 0 image_urls
      if images.isEmpty then [] else [Msg.mediaGroup images]
  match video_url with
  | some v =>
    if v.isEmpty then non_video
    else
      match dl v with
      | some d => [Msg.video d cap]
      | none => []
  | none => non_video

/-- The per-article loop of `post_news` (bot.py lines 166-200), inside one
feed's `try`: scrape the article, skip it when the title is falsy, attempt the
delivery calls, and on success (`send` true for every attempted call) append
the url to `posted_col` and continue; a raising Telegram call (`send` false)
aborts the remaining articles of this feed, leaving the ledger without the
failing article's url. Returns the final ledger and the attempted calls tagged
with their article's url. -/
def process_articles (scr : PStr → ScrapeResult) (dl : PStr → Option Nat)
    (send : Msg → Bool) : List Article → Ledger → Ledger × List (PStr × Msg)
  | [], ledger => (ledger, [])
  | a :: rest, ledger =>
    let sr := scr a.url
    match sr.title with
    | none => process_articles scr dl send rest ledger
    | some t =>
      if t.isEmpty then process_articles scr dl send rest ledger
      else
        let text := make_caption t sr.summary a.source_name a.url
        let msgs := deliver_article dl text sr.images sr.video
        let tagged := msgs.map fun m => (a.url, m)
        if msgs.all send then
          let out := process_articles scr dl send rest (record_posted ledger a.url)
          (out.1, tagged ++ out.2)
        else (ledger, tagged)

/-- One feed's raw source content: either a parsed RSS feed (name and entry
links) or the NewsOnAir page's cards. -/
inductive FeedSrc where
  | rss (name : PStr) (links : List (Option PStr))
  | newsonair (cards : List Card)

/-- Source dispatch of `fetch_feed_entries` (bot.py lines 141-156): the NewsOnAir url is
routed to the custom scraper, everything else through feedparser. -/
def fetch_feed (ledger : Ledger) : FeedSrc → List Article
  | .rss name links => fetch_feed_entries ledger name links
  | .newsonair cards => fetch_newsonair_articles ledger cards

/-- Embeds `post_news` (bot.py lines 159-203): for each feed in order, fetch the
candidates against the current ledger and process them; the feed-level
`except` confines a dispatch failure to its own feed, so the remaining feeds
are processed regardless. -/
def post_news (scr : PStr → ScrapeResult) (dl : PStr → Option Nat)
    (send : Msg → Bool) : List FeedSrc → Ledger → Ledger × List (PStr × Msg)
  | [], ledger => (ledger, [])
  | f :: fs, ledger =>
    let arts := fetch_feed ledger f
    let step := process_articles scr dl send arts ledger
    let out := post_news scr dl send fs step.1
    (out.1, step.2 ++ out.2)

/-! ## Scheduler (`main_loop`, bot.py lines 252-256) -/

/-- Default of `FETCH_INTERVAL_HOURS`: `float(os.getenv("FETCH_INTERVAL_HOURS",
"0.25"))` (bot.py line 17), as an exact rational. -/
def FETCH_INTERVAL_HOURS : ℚ := 1 / 4

/-- The argument of `asyncio.sleep` in `main_loop` (bot.py line 256). -/
def sleep_seconds : ℚ := FETCH_INTERVAL_HOURS * 3600

/-- Start time of the n-th pass of `main_loop` (bot.py lines 252-256), given
the duration `d i` of each pass `i`: the loop body runs `post_news` and then
sleeps `sleep_seconds`, so each pass starts one sleep interval after the
previous pass finished. -/
def passStart (d : ℕ → ℚ) : ℕ → ℚ
  | 0 => 0
  | n + 1 => passStart d n + d n + sleep_seconds

/-- Finish time of the n-th pass. -/
def passEnd (d : ℕ → ℚ) (n : ℕ) : ℚ :=
  passStart d n + d n

end Newsbot

namespace Newsbot

/-! ## Helper lemmas -/

/-- The existence check `ledger_has` is list membership. -/
lemma ledger_has_iff {l : Ledger} {u : PStr} : ledger_has l u = true ↔ u ∈ l := by
  simp [ledger_has, List.contains, List.elem_eq_mem]

/-- Appending a document preserves every existing existence check. -/
lemma ledger_has_record {l : Ledger} {u w : PStr} (h : ledger_has l u = true) :
    ledger_has (record_posted l w) u = true := by
  rw [ledger_has_iff] at h ⊢
  exact List.mem_append_left _ h

/-- The ledger produced by the per-article loop extends the input ledger:
every url present before the loop is still present after it. -/
lemma process_articles_ledger_mono (scr : PStr → ScrapeResult) (dl : PStr → Option Nat)
    (send : Msg → Bool) (arts : List Article) (ledger : Ledger) (u : PStr)
    (h : ledger_has ledger u = true) :
    ledger_has (process_articles scr dl send arts ledger).1 u = true := by
  induction arts generalizing ledger with
  | nil => exact h
  | cons a rest ih =>
    simp only [process_articles]
    cases (scr a.url).title with
    | none => exact ih ledger h
    | some t =>
      by_cases ht : t.isEmpty <;> simp only [ht, if_true, if_false]
      · exact ih ledger h
      · by_cases hs :
          (deliver_article dl (make_caption t (scr a.url).summary a.source_name a.url)
            (scr a.url).images (scr a.url).video).all send
          <;> simp only [hs, if_true, if_false]
        · exact ih _ (ledger_has_record h)
        · exact h

/-- Every attempted delivery in the per-article loop is tagged with the url of
one of the input articles. -/
lemma process_articles_attempt_mem (scr : PStr → ScrapeResult) (dl : PStr → Option Nat)
    (send : Msg → Bool) (arts : List Article) (ledger : Ledger)
    (p : PStr × Msg) (hp : p ∈ (process_articles scr dl send arts ledger).2) :
    p.1 ∈ arts.map Article.url := by
  induction arts generalizing ledger with
  | nil => simp [process_articles] at hp
  | cons a rest ih =>
    simp only [process_articles] at hp
    split at hp
    · exact List.mem_cons_of_mem _ (ih ledger hp)
    · split at hp
      · exact List.mem_cons_of_mem _ (ih ledger hp)
      · split at hp
        · rcases List.mem_append.mp hp with hl | hr
          · rcases List.mem_map.mp hl with ⟨m, _, hm⟩
            simp [← hm]
          · exact List.mem_cons_of_mem _ (ih _ hr)
        · rcases List.mem_map.mp hp with ⟨m, _, hm⟩
          simp [← hm]

/-- Both fetchers filter against the current ledger: a candidate's url is
never one the ledger already has. -/
lemma fetch_feed_new (ledger : Ledger) (f : FeedSrc) (a : Article)
    (ha : a ∈ fetch_feed ledger f) : ledger_has ledger a.url = false := by
  cases f with
  | rss name links =>
    simp only [fetch_feed, fetch_feed_entries] at ha
    rcases List.mem_filterMap.mp ha with ⟨l, _, hl⟩
    cases l with
    | none => simp at hl
    | some s =>
      simp only at hl
      split at hl
      · rename_i hcond
        cases hl
        simpa using hcond.2
      · simp at hl
  | newsonair cards =>
    simp only [fetch_feed, fetch_newsonair_articles] at ha
    have ha' := List.take_subset _ _ ha
    rcases List.mem_filterMap.mp ha' with ⟨c, _, hc⟩
    rcases c with ⟨link, title⟩
    cases link with
    | none => simp at hc
    | some l =>
      cases title with
      | none => simp at hc
      | some t =>
        simp only at hc
        split at hc
        · rename_i hcond
          cases hc
          simpa using hcond.2
        · simp at hc

/-- The loop `build_images` drops exactly the failed downloads: it is empty iff every
download failed, regardless of the starting index. -/
lemma build_images_eq_nil_iff (dl : PStr → Option Nat) (cap : PStr) (i : Nat)
    (imgs : List PStr) :
    build_images dl cap i imgs = [] ↔ ∀ u ∈ imgs, dl u = none := by
  induction imgs generalizing i with
  | nil => simp [build_images]
  | cons x rest ih =>
    simp only [build_images]
    cases hx : dl x with
    | none => simp [hx, ih]
    | some d => simp [hx]

/-- Items produced from a nonzero enumeration index never carry the caption. -/
lemma build_images_caption_none (dl : PStr → Option Nat) (cap : PStr)
    (imgs : List PStr) (i : Nat) (hi : i ≠ 0) :
    ∀ it ∈ build_images dl cap i imgs, it.2 = none := by
  induction imgs generalizing i with
  | nil => simp [build_images]
  | cons x rest ih =>
    intro it hit
    simp only [build_images] at hit
    cases hx : dl x with
    | none =>
      rw [hx] at hit
      exact ih (i + 1) (Nat.succ_ne_zero i) it hit
    | some d =>
      rw [hx] at hit
      rcases List.mem_cons.mp hit with h | h
      · simp [h, hi]
      · exact ih (i + 1) (Nat.succ_ne_zero i) it h

/-- A nonempty list on which every element is sent unsuccessfully fails
`List.all`. -/
lemma all_false_of_ne_nil {msgs : List Msg} (h : msgs ≠ []) :
    msgs.all (fun _ => false) = false := by
  cases msgs with
  | nil => exact absurd rfl h
  | cons m rest => simp

/-! ## Claim C3: image list pipeline -/

/-- Claim C3, counterexample: on the claimed input
`["https://s/a.png", "https://s/a.png", "https://s/logo.png", "/b.jpg"]` the
code does NOT produce `["https://s/a.png", "https://s/b.jpg"]` — `bot.py`
neither deduplicates the image list nor resolves the relative `/b.jpg` against
the article's base; it returns
`["https://s/a.png", "https://s/a.png", "/b.jpg"]`. -/
theorem C3_counterexample :
    main_images ["https://s/a.png".data, "https://s/a.png".data,
        "https://s/logo.png".data, "/b.jpg".data]
      ≠ ["https://s/a.png".data, "https://s/b.jpg".data] := by decide

/-- Claim C3, amended: the raw image list is filtered by the denylist and
capped at 3, preserving order (a sublist of the input); duplicates survive and
relative URLs are kept verbatim, so the claimed input yields
`["https://s/a.png", "https://s/a.png", "/b.jpg"]`. -/
theorem C3_images_filter_cap :
    main_images ["https://s/a.png".data, "https://s/a.png".data,
        "https://s/logo.png".data, "/b.jpg".data]
      = ["https://s/a.png".data, "https://s/a.png".data, "/b.jpg".data] ∧
    ∀ l : List PStr, (main_images l).length ≤ 3 ∧ List.Sublist (main_images l) l ∧
      ∀ u ∈ main_images l, is_valid_image u = true := by
  refine ⟨by decide, fun l => ?_⟩
  simp only [main_images]
  refine ⟨List.length_take_le _ _,
    (List.take_sublist _ _).trans (List.filter_sublist _), fun u hu => ?_⟩
  exact (List.mem_filter.mp (List.take_subset _ _ hu)).2

/-- Claim C3, witness for the amended theorem at a concrete image list. -/
theorem C3_images_filter_cap_w : is_valid_image "/b.jpg".data = true :=
  (C3_images_filter_cap.2 ["/b.jpg".data]).2.2 "/b.jpg".data (by decide)

/-! ## Claim C4: summary cleaning -/

/-- Claim C4, counterexample: `bot.py` never collapses interior whitespace of
the summary — `"  a\n\n b   c "` yields `"a\n\n b   c"` (only the ends are
stripped), not the claimed `"a b c"`. -/
theorem C4_counterexample :
    extract_summary (some "  a\n\n b   c ".data) [] ≠ "a b c".data := by decide

/-- Claim C4, amended: the summary keeps its interior whitespace and is only
stripped at the ends (the claimed input yields `"a\n\n b   c"`); a stripped
summary of at most 900 characters passes through unchanged, and a longer one
is cut to its first 900 characters, dropped back to the last space, plus
`"..."` — which can exceed the 900 cap (903 characters when no space occurs,
as on a 901-character space-free input). -/
theorem C4_summary_strip_truncate :
    extract_summary (some "  a\n\n b   c ".data) [] = "a\n\n b   c".data ∧
    (∀ (c : PStr) (ps : List PStr), (pyStrip c).isEmpty = false →
      (pyStrip c).length ≤ 900 → extract_summary (some c) ps = pyStrip c) ∧
    (extract_summary (some (List.replicate 901 'b')) []).length = 903 := by
  refine ⟨by decide, ?_, by decide⟩
  intro c ps hne hlen
  simp only [extract_summary, hne, Bool.false_eq_true, if_false]
  exact if_neg (by omega)

/-- Claim C4, witness for the amended theorem at a concrete summary. -/
theorem C4_summary_strip_truncate_w : extract_summary (some " x ".data) [] = "x".data := by
  have h := C4_summary_strip_truncate.2.1 " x ".data [] (by decide) (by decide)
  rw [h]; decide

/-! ## Claim C7: ledger record operation -/

/-- Claim C7, counterexample: the ledger record (`posted_col.insert_one`,
bot.py line 200) is not an idempotent insert-if-absent — recording the same
url twice does not leave the ledger in the state of recording it once (a
second document is appended). -/
theorem C7_counterexample :
    record_posted (record_posted [] "u".data) "u".data ≠ record_posted [] "u".data := by
  decide

/-- Claim C7, amended: `record_posted` is a plain unconditional append — it
never errors (it is total) but always grows the collection by one document,
so re-recording a present key duplicates it; the existence check
(`find_one`) is nevertheless unaffected by the duplicate. -/
theorem C7_record_append : ∀ (l : Ledger) (u : PStr),
    (record_posted l u).length = l.length + 1 ∧
    ∀ w, ledger_has (record_posted (record_posted l u) u) w
          = ledger_has (record_posted l u) w := by
  intro l u
  refine ⟨by simp [record_posted], fun w => ?_⟩
  simp only [ledger_has, List.contains, List.elem_eq_mem, record_posted]
  rw [decide_eq_decide]
  simp only [List.mem_append, List.mem_singleton]
  tauto

/-! ## Claim C8: scheduler -/

/-- Claim C8, confirmed: `main_loop` (bot.py lines 252-256) is an unbounded
fixed-delay loop — the sleep interval defaults to
`0.25 hours × 3600 = 900` seconds, each pass starts exactly one interval
after the previous pass finished (measured from its completion, so an
overrunning pass is never skipped), and passes never overlap and occur in
strictly increasing order. -/
theorem C8_fixed_delay (d : ℕ → ℚ) (hd : ∀ n, 0 ≤ d n) :
    sleep_seconds = 900 ∧
    (∀ n, passStart d (n + 1) = passEnd d n + sleep_seconds) ∧
    (∀ n, passEnd d n ≤ passStart d (n + 1)) ∧
    (∀ n, passStart d n < passStart d (n + 1)) := by
  have hs : sleep_seconds = 900 := by norm_num [sleep_seconds, FETCH_INTERVAL_HOURS]
  refine ⟨hs, fun n => rfl, fun n => ?_, fun n => ?_⟩
  · simp only [passStart, passEnd, hs]
    linarith [hd n]
  · simp only [passStart, passEnd, hs]
    linarith [hd n]

/-- Claim C8, witness: the fixed-delay theorem applied to instantaneous
passes; the default sleep interval is 900 seconds. -/
theorem C8_fixed_delay_w : sleep_seconds = 900 :=
  (C8_fixed_delay (fun _ => 0) (fun _ => le_refl 0)).1

/-! ## Claim C2: delivery shape selection -/

/-- Claim C2, counterexample: an article whose `og:video` url fails to
download produces NO delivery at all — `bot.py` lines 173-183 send nothing
when `download_file(video_url)` returns `None` and never fall back to the
image list (here `"i"` was available and downloadable) or to a text payload. -/
theorem C2_counterexample :
    (fun u => if u = "i".data then some 7 else none : PStr → Option Nat) "i".data
      = some 7 ∧
    deliver_article (fun u => if u = "i".data then some 7 else none) "c".data
      ["i".data] (some "v".data) = [] := by decide

/-- Claim C2, amended: shape selection is by priority — a truthy video url
that downloads yields exactly one video message with the caption; a truthy
video url whose download fails yields NO message (no fallback to images or
text); with no video url, at least one downloadable image yields exactly one
media-group message; image urls that all fail to download yield no message;
and no media at all yields one plain text message with the caption. -/
theorem C2_shape_selection (dl : PStr → Option Nat) (cap : PStr) (imgs : List PStr)
    (v : PStr) (hv : v.isEmpty = false) :
    (∀ d, dl v = some d → deliver_article dl cap imgs (some v) = [Msg.video d cap]) ∧
    (dl v = none → deliver_article dl cap imgs (some v) = []) ∧
    ((∃ u ∈ imgs, dl u ≠ none) → ∃ items, items ≠ [] ∧
        deliver_article dl cap imgs none = [Msg.mediaGroup items]) ∧
    ((∀ u ∈ imgs, dl u = none) → imgs ≠ [] → deliver_article dl cap imgs none = []) ∧
    deliver_article dl cap [] none = [Msg.text cap] := by
  refine ⟨?_, ?_, ?_, ?_, by simp [deliver_article]⟩
  · intro d hd
    simp [deliver_article, hv, Bool.false_eq_true, hd]
  · intro hd
    simp [deliver_article, hv, Bool.false_eq_true, hd]
  · rintro ⟨u, hu, hdu⟩
    have himgs : imgs ≠ [] := List.ne_nil_of_mem hu
    have hb : build_images dl cap 0 imgs ≠ [] := by
      rw [Ne, build_images_eq_nil_iff]
      intro hall
      exact hdu (hall u hu)
    refine ⟨build_images dl cap 0 imgs, hb, ?_⟩
    simp [deliver_article, List.isEmpty_iff, himgs, hb]
  · intro hall hne
    have hb : build_images dl cap 0 imgs = [] := (build_images_eq_nil_iff _ _ _ _).mpr hall
    simp [deliver_article, List.isEmpty_iff, hne, hb]

/-- Claim C2, witness for the amended theorem: a downloadable video yields
exactly one video message carrying the caption. -/
theorem C2_shape_selection_w :
    deliver_article (fun _ => some 7) "c".data [] (some "v".data)
      = [Msg.video 7 "c".data] :=
  (C2_shape_selection (fun _ => some 7) "c".data [] "v".data (by decide)).1 7 rfl

/-! ## Claim C9: scrape-mode candidate selection -/

/-- Modelled from the spec: the topical-keyword heuristic the spec claims for
scrape-mode candidate links (path contains "news", "article" or "story").
No such check exists in `fetch_newsonair_articles`; this definition exists
only to compare the spec's words with the code. -/
def spec_topical_keyword (l : PStr) : Bool :=
  hasSubstr l "news".data || hasSubstr l "article".data || hasSubstr l "story".data

/-- Claim C9, counterexample: `fetch_newsonair_articles` applies no
topical-keyword heuristic and no deduplication — a link with no "news",
"article" or "story" in its path is accepted, and the same link coming from
two cards is kept twice. -/
theorem C9_counterexample :
    fetch_newsonair_articles []
        [⟨some "https://x.com/abc".data, some "T".data⟩,
         ⟨some "https://x.com/abc".data, some "T".data⟩]
      = [⟨"https://x.com/abc".data, "News On Air Hindi".data⟩,
         ⟨"https://x.com/abc".data, "News On Air Hindi".data⟩] ∧
    spec_topical_keyword "https://x.com/abc".data = false := by decide

/-- Claim C9, amended: in scrape mode a link becomes a candidate iff its card
has an anchor and a nonempty title and its resolved url is not already in the
ledger — there is no keyword heuristic and no per-pass deduplication — and
the candidate list is capped at 8 (not 5). -/
theorem C9_scrape_candidates : ∀ (ledger : Ledger) (cards : List Card),
    (fetch_newsonair_articles ledger cards).length ≤ 8 ∧
    ∀ a ∈ fetch_newsonair_articles ledger cards,
      ledger_has ledger a.url = false ∧ a.source_name = "News On Air Hindi".data := by
  intro ledger cards
  simp only [fetch_newsonair_articles]
  refine ⟨List.length_take_le _ _, fun a ha => ?_⟩
  have ha' := List.take_subset _ _ ha
  rcases List.mem_filterMap.mp ha' with ⟨c, _, hc⟩
  rcases c with ⟨link, title⟩
  cases link with
  | none => simp at hc
  | some l =>
    cases title with
    | none => simp at hc
    | some t =>
      simp only at hc
      split at hc
      · rename_i hcond
        cases hc
        exact ⟨by simpa using hcond.2, rfl⟩
      · simp at hc

/-- Claim C9, witness for the amended theorem at a concrete card list. -/
theorem C9_scrape_candidates_w :
    ledger_has [] "https://x.com/q".data = false ∧
    Article.source_name ⟨"https://x.com/q".data, "News On Air Hindi".data⟩
      = "News On Air Hindi".data :=
  (C9_scrape_candidates [] [⟨some "https://x.com/q".data, some "T".data⟩]).2
    ⟨"https://x.com/q".data, "News On Air Hindi".data⟩ (by decide)

/-! ## Claim C10: caption binding and all-downloads-failed behaviour -/

/-- Claim C10, confirmed: the media-group caption is bound to the asset of the
first image URL (enumeration index 0), not to the first successful download —
when the first image's download fails no item of the group carries a caption,
though the group is still sent if a later download succeeds; and when every
image download fails for an article with image urls and no video, no message
is dispatched at all yet the article's url is still recorded in the ledger. -/
theorem C10_caption_and_record (dl : PStr → Option Nat) (cap sm : PStr)
    (u : PStr) (rest : List PStr) (h : dl u = none) :
    (∀ it ∈ build_images dl cap 0 (u :: rest), it.2 = none) ∧
    ((∃ r ∈ rest, dl r ≠ none) → ∃ items, items ≠ [] ∧ (∀ it ∈ items, it.2 = none) ∧
        deliver_article dl cap (u :: rest) none = [Msg.mediaGroup items]) ∧
    (∀ (scr : PStr → ScrapeResult) (send : Msg → Bool) (ledger : Ledger)
        (a : Article) (t : PStr), t.isEmpty = false →
      scr a.url = ⟨some t, sm, u :: rest, none⟩ →
      (∀ w ∈ u :: rest, dl w = none) →
      process_articles scr dl send [a] ledger = (record_posted ledger a.url, [])) := by
  have hhead : build_images dl cap 0 (u :: rest) = build_images dl cap 1 rest := by
    simp [build_images, h]
  refine ⟨?_, ?_, ?_⟩
  · rw [hhead]
    exact build_images_caption_none dl cap rest 1 (Nat.succ_ne_zero 0)
  · rintro ⟨r, hr, hdr⟩
    have hb : build_images dl cap 0 (u :: rest) ≠ [] := by
      rw [Ne, build_images_eq_nil_iff]
      intro hall
      exact hdr (hall r (List.mem_cons_of_mem _ hr))
    refine ⟨build_images dl cap 0 (u :: rest), hb, ?_, ?_⟩
    · rw [hhead]
      exact build_images_caption_none dl cap rest 1 (Nat.succ_ne_zero 0)
    · simp [deliver_article, hb]
  · intro scr send ledger a t ht hscr hall
    have hb : build_images dl (make_caption t sm a.source_name a.url) 0 (u :: rest)
        = [] := (build_images_eq_nil_iff _ _ _ _).mpr hall
    simp [process_articles, hscr, ht, Bool.false_eq_true, deliver_article, hb]

/-- Claim C10, witness: the caption-on-index-0 fact applied to a concrete
download oracle where the first image fails and the second succeeds. -/
theorem C10_caption_and_record_w : ((3 : Nat), (none : Option PStr)).2 = none :=
  (C10_caption_and_record (fun w => if w = "i1".data then some 3 else none)
      "c".data "s".data "i0".data ["i1".data] (by decide)).1 (3, none) (by decide)

/-! ## Claim C1: ledger urls are never re-dispatched -/

/-- A freshly recorded url is reported present. -/
lemma ledger_has_record_self {l : Ledger} {u : PStr} :
    ledger_has (record_posted l u) u = true := by
  rw [ledger_has_iff, record_posted]
  exact List.mem_append_right _ (List.mem_singleton.mpr rfl)

/-- Claim C1, confirmed: a url already present in the dedup ledger is
filtered out by both fetchers before processing, so a pass over any feeds
never attempts a delivery tagged with that url — no article recorded as seen
is ever dispatched again. -/
theorem C1_ledger_filter (scr : PStr → ScrapeResult) (dl : PStr → Option Nat)
    (send : Msg → Bool) (feeds : List FeedSrc) (ledger : Ledger) (u : PStr)
    (h : ledger_has ledger u = true) :
    ∀ p ∈ (post_news scr dl send feeds ledger).2, p.1 ≠ u := by
  induction feeds generalizing ledger h with
  | nil => simp [post_news]
  | cons f fs ih =>
    intro p hp
    simp only [post_news] at hp
    rcases List.mem_append.mp hp with hl | hr
    · have hmem := process_articles_attempt_mem scr dl send (fetch_feed ledger f) ledger p hl
      rcases List.mem_map.mp hmem with ⟨a, ha, hau⟩
      have hnew := fetch_feed_new ledger f a ha
      intro heq
      rw [hau, heq, h] at hnew
      exact Bool.noConfusion hnew
    · exact ih _ (process_articles_ledger_mono scr dl send _ ledger u h) p hr

/-- Claim C1, witness: with `"u"` already in the ledger, a pass over a feed
listing both `"u"` and a fresh `"w"` attempts only `"w"`. -/
theorem C1_ledger_filter_w :
    ("w".data, Msg.text (make_caption "T".data "s".data "S".data "w".data)).1
      ≠ "u".data := by
  have h := C1_ledger_filter (fun _ => ⟨some "T".data, "s".data, [], none⟩)
      (fun _ => none) (fun _ => true)
      [.rss "S".data [some "u".data, some "w".data]] ["u".data] "u".data (by decide)
  exact h _ (by decide)

/-! ## Claim C5: ledger record versus send outcome -/

/-- Claim C5, counterexample: when the dispatch call raises, the key is NOT
recorded — here one new article's text send fails and the ledger stays empty
although a delivery was attempted, contradicting "the ledger record is
written regardless of the send outcome". -/
theorem C5_counterexample :
    (process_articles (fun _ => ⟨some "T".data, "s".data, [], none⟩) (fun _ => none)
        (fun _ => false) [⟨"u".data, "S".data⟩] []).1 = [] ∧
    (process_articles (fun _ => ⟨some "T".data, "s".data, [], none⟩) (fun _ => none)
        (fun _ => false) [⟨"u".data, "S".data⟩] []).2 ≠ [] := by decide

/-- Claim C5, amended: the ledger record is written after the dispatch calls
only when none of them raises (in particular it IS written when nothing was
dispatched at all, e.g. after a failed video download); when a dispatch call
raises, the article's key is not recorded and the feed's ledger is left
unchanged. -/
theorem C5_record_semantics (scr : PStr → ScrapeResult) (dl : PStr → Option Nat)
    (send : Msg → Bool) (ledger : Ledger) (a : Article) (rest : List Article)
    (t : PStr) (ht : (scr a.url).title = some t) (hne : t.isEmpty = false) :
    ((deliver_article dl (make_caption t (scr a.url).summary a.source_name a.url)
        (scr a.url).images (scr a.url).video).all send = true →
      ledger_has (process_articles scr dl send (a :: rest) ledger).1 a.url = true) ∧
    ((deliver_article dl (make_caption t (scr a.url).summary a.source_name a.url)
        (scr a.url).images (scr a.url).video).all send = false →
      (process_articles scr dl send (a :: rest) ledger).1 = ledger) := by
  constructor
  · intro hs
    simp only [process_articles, ht, hne, Bool.false_eq_true, if_false, hs, if_true]
    exact process_articles_ledger_mono scr dl send rest _ a.url ledger_has_record_self
  · intro hs
    simp only [process_articles, ht, hne, Bool.false_eq_true, if_false, hs]

/-- Claim C5, witness: a successful text dispatch records the url. -/
theorem C5_record_semantics_w :
    ledger_has (process_articles (fun _ => ⟨some "T".data, "s".data, [], none⟩)
        (fun _ => none) (fun _ => true) [⟨"u".data, "S".data⟩] []).1 "u".data
      = true := by
  have h := C5_record_semantics (fun _ => ⟨some "T".data, "s".data, [], none⟩)
      (fun _ => none) (fun _ => true) [] ⟨"u".data, "S".data⟩ [] "T".data rfl (by decide)
  exact h.1 (by decide)

/-! ## Claim C6: effect of a dispatch failure on the rest of the feed -/

/-- Claim C6, counterexample: with two new scrapeable articles in one feed and
a raising transport, only the first article's delivery is attempted — the
feed-level `except` of bot.py line 202 aborts the remaining articles of that
feed, contradicting "every remaining new article of the same feed still gets
its own delivery attempt". -/
theorem C6_counterexample :
    (process_articles (fun _ => ⟨some "T".data, "s".data, [], none⟩) (fun _ => none)
        (fun _ => false) [⟨"u1".data, "S".data⟩, ⟨"u2".data, "S".data⟩] []).2.map
        Prod.fst
      = ["u1".data] := by decide

/-- Claim C6, amended: a dispatch failure on one article is caught at the feed
level: it aborts the remaining articles of that feed for the pass (they get
no delivery attempt and no ledger record), while the subsequent feeds of the
same pass are still processed, from the unchanged ledger. -/
theorem C6_failure_aborts_feed (scr : PStr → ScrapeResult) (dl : PStr → Option Nat)
    (send : Msg → Bool) (ledger : Ledger) (f : FeedSrc) (a : Article)
    (rest : List Article) (feeds : List FeedSrc) (t : PStr)
    (hf : fetch_feed ledger f = a :: rest)
    (ht : (scr a.url).title = some t) (hne : t.isEmpty = false)
    (hs : (deliver_article dl (make_caption t (scr a.url).summary a.source_name a.url)
        (scr a.url).images (scr a.url).video).all send = false) :
    (post_news scr dl send (f :: feeds) ledger).2
      = (deliver_article dl (make_caption t (scr a.url).summary a.source_name a.url)
          (scr a.url).images (scr a.url).video).map (fun m => (a.url, m))
        ++ (post_news scr dl send feeds ledger).2 ∧
    (post_news scr dl send (f :: feeds) ledger).1
      = (post_news scr dl send feeds ledger).1 := by
  constructor <;>
    simp only [post_news, hf, process_articles, ht, hne, Bool.false_eq_true, if_false, hs]

/-- Claim C6, witness: one failing feed followed by no further feeds — the
pass's attempts are exactly the failing article's single message. -/
theorem C6_failure_aborts_feed_w :
    (post_news (fun _ => ⟨some "T".data, "s".data, [], none⟩) (fun _ => none)
        (fun _ => false) [.rss "S".data [some "u1".data, some "u2".data]] []).2
      = [("u1".data, Msg.text (make_caption "T".data "s".data "S".data "u1".data))] := by
  have h := C6_failure_aborts_feed (fun _ => ⟨some "T".data, "s".data, [], none⟩)
      (fun _ => none) (fun _ => false) [] (.rss "S".data [some "u1".data, some "u2".data])
      ⟨"u1".data, "S".data⟩ [⟨"u2".data, "S".data⟩] [] "T".data (by decide) rfl
      (by decide) (by decide)
  rw [h.1]
  decide

end Newsbot
